import Mathlib

/-!
Verification of the deployment orchestration engine of
`src/sequencer/src/bin/deploy.rs`.

The Rust source is shallowly embedded as follows.

* `Contract` mirrors `enum Contract` (the five logical contracts).
* `Contracts` mirrors `struct Contracts(HashMap<Contract, Address>)`,
  with the map represented as a total function into `Option Address`.
* `Contracts.deploy_fn` / `Contracts.deploy_tx` are the memoizing
  registry operations (lines 175-212 of the source).  A deploy
  procedure is a function from the registry to
  `(registry, event trace, Except error address)`; it receives mutable
  access to the registry exactly as the `FnOnce(&mut Self)` closure does.
  Side effects visible in the source (tracing notifications, transaction
  broadcasts, bytecode linking, genesis fetch, calldata construction)
  are recorded in an explicit `Event` trace.
* `BytecodeObject` and its operations `link_fully_qualified`, `resolve`,
  `as_bytes`, `is_unlinked` model the `ethers::solc::artifacts`
  bytecode API used by `deploy_light_client_contract`: an unlinked
  object is a sequence of bytes and named library placeholders;
  `link_fully_qualified` substitutes the placeholders of one named
  library; `resolve` converts an unlinked object into raw bytes exactly
  when no placeholder remains (hex decoding fails on a placeholder
  marker), and leaves it unlinked otherwise.
* `Env` packages the outcomes of the external world: construction of
  each statically-known contract deployer (the `X::deploy(client, args)?`
  calls), broadcast outcomes of each deployment transaction, the
  LightClient bytecode artifact read from disk, the genesis fetch, and
  calldata encoding.  The orchestration (`runMain`,
  `deploy_light_client_contract`, `deploy_light_client_proxy_proc`)
  is a deterministic function of an `Env` and the initial registry.
-/

/-- An L1 account/contract address (opaque beyond equality, modelled as `Nat`). -/
abbrev Address := Nat

/-- Errors carried by `anyhow::Result`, modelled as their context strings. -/
abbrev Err := String

/-- The opaque genesis payload returned by `light_client_genesis`. -/
abbrev Genesis := Nat

/-- Encoded calldata of the light client `initialize` call. -/
abbrev Calldata := Nat

/-- `enum Contract`: identifier of a particular contract (deploy.rs lines 123-135). -/
inductive Contract where
  | HotShot
  | PlonkVerifier
  | StateUpdateVK
  | LightClient
  | LightClientProxy
deriving DecidableEq, Repr

/-- The five contract identifiers, in declaration order. -/
def allContracts : List Contract :=
  [.HotShot, .PlonkVerifier, .StateUpdateVK, .LightClient, .LightClientProxy]

/-- `struct Contracts(HashMap<Contract, Address>)`: cache of contracts
predeployed or deployed during the current run (deploy.rs line 144). -/
structure Contracts where
  entries : Contract → Option Address

/-- `self.0.get(&name)`. -/
def Contracts.get (s : Contracts) (name : Contract) : Option Address :=
  s.entries name

/-- `self.0.insert(name, addr)`. -/
def Contracts.insert (s : Contracts) (name : Contract) (addr : Address) : Contracts :=
  ⟨fun c => if c = name then some addr else s.entries c⟩

/-- Overwrite one entry of the registry with an arbitrary value (present
or absent); used to state that a computation neither reads nor writes
that entry. -/
def Contracts.set (s : Contracts) (c₀ : Contract) (v : Option Address) : Contracts :=
  ⟨fun c => if c = c₀ then v else s.entries c⟩

/-- `Contracts::write`: serialize the registry as one `NAME=0xADDRESS`
line per recorded contract (deploy.rs lines 215-220).  The entries are
produced in the canonical declaration order of `Contract`; the map
iteration order of the source is unspecified and the spec declares the
line order insignificant. -/
def Contracts.write (s : Contracts) : List (Contract × Address) :=
  allContracts.filterMap fun c => (s.entries c).map fun a => (c, a)

/-- Observable events of a run: the tracing notifications emitted by
`deploy_fn`, transaction broadcasts, the bytecode-linking step, the
genesis fetch and the calldata construction. -/
inductive Event where
  /-- `tracing::info!("deploying {name}")`: the deploy procedure for `c` is invoked. -/
  | invoked (c : Contract)
  /-- `tracing::info!("skipping deployment of {name}, ...")`. -/
  | skipped (c : Contract) (addr : Address)
  /-- `tracing::info!("deployed {name} at {addr}")`. -/
  | deployed (c : Contract) (addr : Address)
  /-- A deployment transaction for `c` is broadcast (`.send()`). -/
  | broadcast (c : Contract)
  /-- Bytecode linking for the light client is attempted with the two library addresses. -/
  | linkAttempt (plonkVerifier stateUpdateVK : Address)
  /-- `light_client_genesis(&orchestrator_url)` returned this payload. -/
  | genesisFetched (g : Genesis)
  /-- The `initialize` calldata is constructed against the light client at this address. -/
  | calldataBuilt (lightClient : Address) (data : Calldata)
deriving DecidableEq, Repr

/-- The result of a registry-mutating step: the updated registry, the
events it emitted, and its `anyhow::Result` value. -/
abbrev Outcome (α : Type) := Contracts × List Event × Except Err α

/-- A deploy procedure: gets mutable access to the registry, may emit
events, and produces an address or an error
(`impl FnOnce(&mut Self) -> BoxFuture<anyhow::Result<Address>>`). -/
abbrev DeployProc := Contracts → Outcome Address

/-- `Contracts::deploy_fn` (deploy.rs lines 175-190): if `name` is
already recorded, return the recorded address without invoking `deploy`;
otherwise invoke `deploy` (which may mutate the registry), and on
success record the returned address under `name`. -/
def Contracts.deploy_fn (s : Contracts) (name : Contract) (deploy : DeployProc) :
    Outcome Address :=
  match s.get name with
  | some addr => (s, [.skipped name addr], .ok addr)
  | none =>
    let r := deploy s
    match r.2.2 with
    | .ok addr =>
        (r.1.insert name addr, .invoked name :: r.2.1 ++ [.deployed name addr], .ok addr)
    | .error e => (r.1, .invoked name :: r.2.1, .error e)

/-- `Contracts::deploy_tx` (deploy.rs lines 195-212): deploy a contract
by broadcasting its prepared deploy transaction; `tx` is the outcome of
`tx.send().await` followed by `contract.address()`.  The closure ignores
the registry. -/
def Contracts.deploy_tx (s : Contracts) (name : Contract) (tx : Except Err Address) :
    Outcome Address :=
  s.deploy_fn name fun s' => (s', [.broadcast name], tx)

/-! ## Bytecode model (`ethers::solc::artifacts::BytecodeObject`) -/

/-- One unit of unlinked bytecode: either a concrete byte or a named
library placeholder (`__$hash$__` / `__libname__` marker). -/
inductive Item where
  | byte (b : Nat)
  | placeholder (lib : String)
deriving DecidableEq, Repr

/-- Whether an item is an unresolved library placeholder. -/
def Item.isPlaceholder : Item → Bool
  | .placeholder _ => true
  | .byte _ => false

/-- `BytecodeObject`: either fully resolved bytes, or an unlinked string
which may still contain library placeholders. -/
inductive BytecodeObject where
  | bytecode (bytes : List Nat)
  | unlinked (code : List Item)
deriving DecidableEq, Repr

/-- Substitution of one library's placeholders at the item level: every
placeholder of the named library is replaced by the library's address. -/
def linkItems : List Item → String → Address → List Item
  | [], _, _ => []
  | .byte b :: rest, name, addr => .byte b :: linkItems rest name addr
  | .placeholder lib :: rest, name, addr =>
    (if lib = name then .byte addr else .placeholder lib) :: linkItems rest name addr

/-- No unresolved library placeholder remains in the object. -/
def BytecodeObject.placeholderFree : BytecodeObject → Bool
  | .bytecode _ => true
  | .unlinked code => !code.any Item.isPlaceholder

/-- `BytecodeObject::link_fully_qualified(name, addr)`: substitute every
placeholder of the named library; acts only on unlinked objects. -/
def BytecodeObject.link_fully_qualified :
    BytecodeObject → String → Address → BytecodeObject
  | .unlinked code, name, addr => .unlinked (linkItems code name addr)
  | .bytecode bs, _, _ => .bytecode bs

/-- Hex decoding of an unlinked string: succeeds exactly when no
placeholder marker remains. -/
def decodeItems : List Item → Option (List Nat)
  | [] => some []
  | .byte b :: rest => (decodeItems rest).map fun bs => b :: bs
  | .placeholder _ :: _ => none

/-- `BytecodeObject::as_bytes`. -/
def BytecodeObject.as_bytes : BytecodeObject → Option (List Nat)
  | .bytecode bs => some bs
  | .unlinked _ => none

/-- `BytecodeObject::is_unlinked`. -/
def BytecodeObject.is_unlinked : BytecodeObject → Bool
  | .unlinked _ => true
  | .bytecode _ => false

/-- `BytecodeObject::resolve`: try to hex-decode an unlinked object into
bytes; returns the (possibly converted) object together with
`as_bytes()` of it. -/
def BytecodeObject.resolve : BytecodeObject → BytecodeObject × Option (List Nat)
  | .bytecode bs => (.bytecode bs, some bs)
  | .unlinked code =>
    match decodeItems code with
    | some bs => (.bytecode bs, some bs)
    | none => (.unlinked code, none)

/-- Fully qualified name of the PlonkVerifier library (deploy.rs line 307). -/
def plonkVerifierLib : String :=
  "contracts/src/libraries/PlonkVerifier.sol:PlonkVerifier"

/-- Fully qualified name of the LightClientStateUpdateVK library (deploy.rs line 314). -/
def stateUpdateVKLib : String :=
  "contracts/src/libraries/LightClientStateUpdateVK.sol:LightClientStateUpdateVK"

/-- The linking pipeline of `deploy_light_client_contract`
(deploy.rs lines 303-327): link PlonkVerifier, resolve (fails with the
PlonkVerifier context if placeholders remain), link
LightClientStateUpdateVK, resolve (fails with the VK context), check
`is_unlinked`, and extract the final bytes. -/
def link_light_client_bytecode (artifact : BytecodeObject) (pv vk : Address) :
    Except Err (List Nat) :=
  let b1 := artifact.link_fully_qualified plonkVerifierLib pv
  match b1.resolve with
  | (_, none) => .error "error linking PlonkVerifier lib"
  | (b1r, some _) =>
    let b2 := b1r.link_fully_qualified stateUpdateVKLib vk
    match b2.resolve with
    | (_, none) => .error "error linking LightClientStateUpdateVK lib"
    | (b2r, some _) =>
      if b2r.is_unlinked then .error "failed to link LightClient.sol"
      else
        match b2r.as_bytes with
        | none => .error "error parsing bytecode for linked LightClient contract"
        | some bytes => .ok bytes

/-! ## The external world and the orchestration -/

/-- Outcomes supplied by the external world for one run: deployer
construction (`X::deploy(client, args)?`), transaction broadcasts
(`.send().await` plus `.address()`), the LightClient bytecode artifact
read from disk, the genesis fetch, the `initialize` calldata encoding,
and the proxy deployment (construction plus send). -/
structure Env where
  /-- `HotShot::deploy(l1.clone(), ())?` (construction of the deployer). -/
  hotshotMk : Except Err Unit
  /-- Broadcast outcome of the HotShot deployment transaction. -/
  hotshotSend : Except Err Address
  /-- `PlonkVerifier::deploy(l1.clone(), ())?`. -/
  pvMk : Except Err Unit
  /-- Broadcast outcome of the PlonkVerifier deployment transaction. -/
  pvSend : Except Err Address
  /-- `LightClientStateUpdateVK::deploy(l1.clone(), ())?`. -/
  vkMk : Except Err Unit
  /-- Broadcast outcome of the LightClientStateUpdateVK deployment transaction. -/
  vkSend : Except Err Address
  /-- `File::open` + `serde_json` read of `LightClient.json`, deserialized
  as a `BytecodeObject`. -/
  artifact : Except Err BytecodeObject
  /-- `light_client_factory.deploy(())?.send().await`, as a function of the
  linked bytecode handed to the factory. -/
  lcSend : List Nat → Except Err Address
  /-- `light_client_genesis(&orchestrator_url).await`. -/
  genesis : Except Err Genesis
  /-- `light_client.initialize(genesis.into(), u32::MAX).calldata()`, as a
  function of the light client address and the genesis payload. -/
  initCalldata : Address → Genesis → Option Calldata
  /-- `ERC1967Proxy::deploy(l1, (light_client.address(), data))?.send().await`,
  as a function of the light client address and the calldata. -/
  proxySend : Address → Calldata → Except Err Address

/-- `deploy_light_client_contract` (deploy.rs lines 280-332): deploy the
two library contracts through the registry, link the LightClient
bytecode with their addresses, and broadcast the linked-bytecode
deployment. -/
def deploy_light_client_contract (env : Env) (s : Contracts) : Outcome Address :=
  match env.pvMk with
  | .error e => (s, [], .error e)
  | .ok _ =>
    let rPV := s.deploy_tx .PlonkVerifier env.pvSend
    match rPV.2.2 with
    | .error e => (rPV.1, rPV.2.1, .error e)
    | .ok pv =>
      match env.vkMk with
      | .error e => (rPV.1, rPV.2.1, .error e)
      | .ok _ =>
        let rVK := rPV.1.deploy_tx .StateUpdateVK env.vkSend
        match rVK.2.2 with
        | .error e => (rVK.1, rPV.2.1 ++ rVK.2.1, .error e)
        | .ok vk =>
          match env.artifact with
          | .error e => (rVK.1, rPV.2.1 ++ rVK.2.1, .error e)
          | .ok art =>
            let tr := rPV.2.1 ++ rVK.2.1 ++ [.linkAttempt pv vk]
            match link_light_client_bytecode art pv vk with
            | .error e => (rVK.1, tr, .error e)
            | .ok bytes =>
              match env.lcSend bytes with
              | .error e => (rVK.1, tr ++ [.broadcast .LightClient], .error e)
              | .ok addr => (rVK.1, tr ++ [.broadcast .LightClient], .ok addr)

/-- The deploy procedure passed to
`deploy_fn(Contract::LightClientProxy, ...)` in `main`
(deploy.rs lines 244-267): resolve the LightClient through the registry,
fetch genesis, build the `initialize` calldata, and deploy the
ERC1967 proxy pointing at the light client. -/
def deploy_light_client_proxy_proc (env : Env) (s : Contracts) : Outcome Address :=
  let rLC := s.deploy_fn .LightClient (deploy_light_client_contract env)
  match rLC.2.2 with
  | .error e => (rLC.1, rLC.2.1, .error e)
  | .ok lc =>
    match env.genesis with
    | .error e => (rLC.1, rLC.2.1, .error e)
    | .ok g =>
      match env.initCalldata lc g with
      | none =>
          (rLC.1, rLC.2.1 ++ [.genesisFetched g],
            .error "calldata for initialize transaction not available")
      | some data =>
        match env.proxySend lc data with
        | .error e =>
            (rLC.1,
              rLC.2.1 ++
                [.genesisFetched g, .calldataBuilt lc data, .broadcast .LightClientProxy],
              .error e)
        | .ok addr =>
            (rLC.1,
              rLC.2.1 ++
                [.genesisFetched g, .calldataBuilt lc data, .broadcast .LightClientProxy],
              .ok addr)

/-- The orchestration part of `main` (deploy.rs lines 240-277), starting
after the provider/wallet setup: deploy HotShot, resolve the light
client proxy chain, and on success hand the final registry to the
output writer (returned here as the written `(name, address)` pairs). -/
def runMain (env : Env) (s0 : Contracts) : Outcome (List (Contract × Address)) :=
  match env.hotshotMk with
  | .error e => (s0, [], .error e)
  | .ok _ =>
    let rH := s0.deploy_tx .HotShot env.hotshotSend
    match rH.2.2 with
    | .error e => (rH.1, rH.2.1, .error e)
    | .ok _ =>
      let rP := rH.1.deploy_fn .LightClientProxy (deploy_light_client_proxy_proc env)
      match rP.2.2 with
      | .error e => (rP.1, rH.2.1 ++ rP.2.1, .error e)
      | .ok _ => (rP.1, rH.2.1 ++ rP.2.1, .ok rP.1.write)

/-! ## Output file handling (`main`, deploy.rs lines 270-275) -/

/-- The subset of `std::fs::OpenOptions` flags used by `main`. -/
structure OpenOptions where
  create : Bool
  write : Bool
  truncate : Bool
  append : Bool

/-- `File::options().create(true).write(true)` as called on the output
path in `main` (deploy.rs line 271): no `truncate`, no `append`. -/
def outFileOpenOptions : OpenOptions :=
  { create := true, write := true, truncate := false, append := false }

/-- Modelled from `std::fs` / POSIX semantics of the external file
system: opening an existing file whose content is `old` with the given
options and writing `data` from the start yields `data` followed by
whatever part of the old content lies beyond the written region; with
`truncate` the old content is discarded first. -/
def openAndWrite (opts : OpenOptions) (old data : List Nat) : List Nat :=
  let base := if opts.truncate then [] else old
  data ++ base.drop data.length

/-! ## Sequences of registry operations (for the write-once invariant) -/

/-- A program built exclusively from `deploy_fn` / `deploy_tx` operations
on a single registry: the shape of every deploy procedure in the source,
where each procedure resolves its dependencies through the registry and
each continuation receives the resolved address. -/
inductive Prog where
  /-- Finish with an address. -/
  | ret (a : Address)
  /-- Finish with an error. -/
  | fail (e : Err)
  /-- `deploy_tx name tx` followed by a continuation on the resolved address. -/
  | deployTx (name : Contract) (tx : Except Err Address) (k : Address → Prog)
  /-- `deploy_fn name proc` followed by a continuation on the resolved
  address, where `proc` is itself such a program. -/
  | deployFn (name : Contract) (proc : Prog) (k : Address → Prog)

/-- Sequence a registry operation with a continuation on its resolved
address: on success the continuation runs on the updated registry and
the traces are concatenated; an error aborts the sequence, exactly as
`?` does in the source. -/
def seqOutcome (r : Outcome Address) (k : Address → Contracts → Outcome Address) :
    Outcome Address :=
  match r.2.2 with
  | .ok addr =>
    let r' := k addr r.1
    (r'.1, r.2.1 ++ r'.2.1, r'.2.2)
  | .error e => (r.1, r.2.1, .error e)

/-- Execute a sequence of registry operations, running each step through
`Contracts.deploy_tx` / `Contracts.deploy_fn` itself. -/
def Prog.exec : Prog → Contracts → Outcome Address
  | .ret a, s => (s, [], .ok a)
  | .fail e, s => (s, [], .error e)
  | .deployTx name tx k, s =>
    seqOutcome (s.deploy_tx name tx) fun addr s' => (k addr).exec s'
  | .deployFn name proc k, s =>
    seqOutcome (s.deploy_fn name fun s' => proc.exec s') fun addr s' => (k addr).exec s'

/-! ## Trace predicates used by the claims -/

/-- Number of times the deploy procedure for `c` is invoked in a trace
(occurrences of the `deploying {name}` notification). -/
def invokedCount (tr : List Event) (c : Contract) : Nat :=
  tr.countP fun e => decide (e = Event.invoked c)

/-- `c` is resolved to `a` somewhere in `l`: either skipped as already
deployed at `a`, or freshly deployed at `a`. -/
def resolvedIn (l : List Event) (c : Contract) (a : Address) : Prop :=
  Event.skipped c a ∈ l ∨ Event.deployed c a ∈ l

/-- Whether an event is the bytecode-linking step. -/
def Event.isLink : Event → Bool
  | .linkAttempt _ _ => true
  | _ => false

/-- Whether an event is the calldata-construction step. -/
def Event.isCalldata : Event → Bool
  | .calldataBuilt _ _ => true
  | _ => false

/-- Every bytecode-linking attempt in the trace is preceded by the
resolution of both library addresses it uses. -/
def LinkGuarded (tr : List Event) : Prop :=
  ∀ l₁ pv vk l₂, tr = l₁ ++ Event.linkAttempt pv vk :: l₂ →
    resolvedIn l₁ .PlonkVerifier pv ∧ resolvedIn l₁ .StateUpdateVK vk

/-- Every calldata construction in the trace is preceded by the
resolution of the light client address it targets. -/
def CalldataGuarded (tr : List Event) : Prop :=
  ∀ l₁ lc d l₂, tr = l₁ ++ Event.calldataBuilt lc d :: l₂ →
    resolvedIn l₁ .LightClient lc

/-- A concrete environment for a fully successful run (all broadcasts
succeed; the artifact holds one PlonkVerifier placeholder). -/
def envLinkW : Env :=
  { hotshotMk := .ok (), hotshotSend := .ok 1, pvMk := .ok (), pvSend := .ok 2,
    vkMk := .ok (), vkSend := .ok 3,
    artifact := .ok (.unlinked [.placeholder plonkVerifierLib, .byte 7]),
    lcSend := fun _ => .ok 4, genesis := .ok 5, initCalldata := fun _ _ => some 6,
    proxySend := fun _ _ => .ok 7 }

/-- The empty registry: no contract pre-deployed. -/
def regEmpty : Contracts := ⟨fun _ => none⟩

/-! ## Claim theorems -/

/-- Claim C1: for every registry state and every `Contract` `name` that
already has a recorded address, `deploy_fn name deploy` (and
`deploy_tx`) returns that pre-existing address unchanged, never invokes
the supplied deploy procedure (the whole result is independent of
`deploy`, and the trace holds only the `skipped` notification), and
leaves the registry unmodified. -/
theorem deploy_fn_memoized (s : Contracts) (name : Contract) (addr : Address)
    (deploy : DeployProc) (tx : Except Err Address)
    (h : s.get name = some addr) :
    s.deploy_fn name deploy = (s, [Event.skipped name addr], Except.ok addr) ∧
    s.deploy_tx name tx = (s, [Event.skipped name addr], Except.ok addr) := by
  constructor <;> simp [Contracts.deploy_fn, Contracts.deploy_tx, h]

/-- Witness for C1 at a concrete registry holding every contract at address 5. -/
theorem deploy_fn_memoized_witness :
    (Contracts.mk fun _ => some 5).deploy_fn .HotShot (fun s => (s, [], .error "x"))
        = (Contracts.mk fun _ => some 5, [Event.skipped .HotShot 5], Except.ok 5) ∧
    (Contracts.mk fun _ => some 5).deploy_tx .HotShot (.error "x")
        = (Contracts.mk fun _ => some 5, [Event.skipped .HotShot 5], Except.ok 5) :=
  deploy_fn_memoized (Contracts.mk fun _ => some 5) .HotShot 5
    (fun s => (s, [], .error "x")) (.error "x") rfl

/-- Claim C2: if `name` is unrecorded and the deploy procedure fails,
`deploy_fn` propagates the error unchanged and adds no entry itself:
the resulting registry is exactly the one the procedure left behind, so
if the procedure (as every procedure in the source does) left `name`
unrecorded, `name` stays unrecorded. -/
theorem deploy_fn_error_propagates (s s' : Contracts) (name : Contract)
    (deploy : DeployProc) (tr : List Event) (e : Err)
    (habs : s.get name = none)
    (hd : deploy s = (s', tr, .error e)) :
    s.deploy_fn name deploy = (s', Event.invoked name :: tr, Except.error e) ∧
    (s'.get name = none → ((s.deploy_fn name deploy).1).get name = none) := by
  constructor
  · simp [Contracts.deploy_fn, habs, hd]
  · intro h'
    simp [Contracts.deploy_fn, habs, hd, h']

/-- Witness for C2 with an empty registry and a procedure failing with "boom". -/
theorem deploy_fn_error_propagates_witness :
    (Contracts.mk fun _ => none).deploy_fn .LightClient
        (fun s => (s, [Event.broadcast .LightClient], .error "boom"))
      = (Contracts.mk fun _ => none,
          [Event.invoked .LightClient, Event.broadcast .LightClient],
          Except.error "boom") ∧
    (((Contracts.mk fun _ => none).deploy_fn .LightClient
        (fun s => (s, [Event.broadcast .LightClient], .error "boom"))).1).get
        .LightClient = none := by
  have h := deploy_fn_error_propagates (Contracts.mk fun _ => none)
    (Contracts.mk fun _ => none) .LightClient
    (fun s => (s, [Event.broadcast .LightClient], .error "boom"))
    [Event.broadcast .LightClient] "boom" rfl rfl
  exact ⟨h.1, h.2 rfl⟩

/-- Helper: `deploy_fn` preserves any recorded entry, provided the deploy
procedure it runs preserves that entry. -/
theorem deploy_fn_preserves (s : Contracts) (name : Contract) (d : DeployProc)
    (c : Contract) (a : Address)
    (hd : ∀ s', s'.get c = some a → ((d s').1).get c = some a)
    (h : s.get c = some a) : ((s.deploy_fn name d).1).get c = some a := by
  have h' : s.entries c = some a := h
  cases hg : s.entries name with
  | some addr => simpa [Contracts.deploy_fn, Contracts.get, hg] using h
  | none =>
    have hne : c ≠ name := by
      rintro rfl; rw [h'] at hg; exact Option.noConfusion hg
    cases hr : (d s).2.2 with
    | ok addr =>
      have hd' : ((d s).1).entries c = some a := hd s h
      simp [Contracts.deploy_fn, Contracts.get, Contracts.insert, hg, hr, hne, hd']
    | error e => simpa [Contracts.deploy_fn, Contracts.get, hg, hr] using hd s h

/-- Helper: `deploy_tx` preserves any recorded entry. -/
theorem deploy_tx_preserves (s : Contracts) (name : Contract) (tx : Except Err Address)
    (c : Contract) (a : Address)
    (h : s.get c = some a) : ((s.deploy_tx name tx).1).get c = some a :=
  deploy_fn_preserves s name _ c a (fun _ h' => h') h

/-- Claim C3 (write-once per key): for every sequence of
`deploy_fn`/`deploy_tx` operations on a single registry — deploy
procedures being themselves such sequences, with mutable access to the
registry — once a contract is mapped to an address, no later operation
changes the address recorded for it. -/
theorem prog_exec_write_once (p : Prog) (s : Contracts) (c : Contract) (a : Address)
    (h : s.get c = some a) : ((p.exec s).1).get c = some a := by
  induction p generalizing s with
  | ret a' => simpa [Prog.exec] using h
  | fail e => simpa [Prog.exec] using h
  | deployTx name tx k ih =>
    have hpres : ((s.deploy_tx name tx).1).get c = some a :=
      deploy_tx_preserves s name tx c a h
    cases hr : (s.deploy_tx name tx).2.2 with
    | ok addr => simpa only [Prog.exec, seqOutcome, hr] using ih addr _ hpres
    | error e => simpa only [Prog.exec, seqOutcome, hr] using hpres
  | deployFn name proc k ihp ihk =>
    have hpres : ((s.deploy_fn name fun s' => proc.exec s').1).get c = some a :=
      deploy_fn_preserves s name _ c a (fun s' h' => ihp s' h') h
    cases hr : (s.deploy_fn name fun s' => proc.exec s').2.2 with
    | ok addr => simpa only [Prog.exec, seqOutcome, hr] using ihk addr _ hpres
    | error e => simpa only [Prog.exec, seqOutcome, hr] using hpres

/-- Witness for C3: a registry holding HotShot at 1 keeps it at 1 across
a concrete sequence of registry operations. -/
theorem prog_exec_write_once_witness :
    (((Prog.deployTx .PlonkVerifier (.ok 2) fun _ =>
        Prog.deployFn .LightClient (.ret 4) fun _ => .ret 9).exec
        (Contracts.mk fun c => if c = .HotShot then some 1 else none)).1).get
      .HotShot = some 1 :=
  prog_exec_write_once _ _ .HotShot 1 rfl

/-- Helper: hex decoding of an unlinked string fails exactly when a
placeholder remains. -/
theorem decodeItems_eq_none_iff (l : List Item) :
    decodeItems l = none ↔ l.any Item.isPlaceholder = true := by
  induction l with
  | nil => simp [decodeItems]
  | cons it rest ih =>
    cases it with
    | byte b => simp [decodeItems, Item.isPlaceholder, Option.map_eq_none', ih]
    | placeholder lib => simp [decodeItems, Item.isPlaceholder]

/-- Helper: linking only removes placeholders; a placeholder surviving a
substitution was already there. -/
theorem any_isPlaceholder_of_linkItems (l : List Item) (n : String) (a : Address)
    (h : (linkItems l n a).any Item.isPlaceholder = true) :
    l.any Item.isPlaceholder = true := by
  induction l with
  | nil => simp [linkItems] at h
  | cons it rest ih =>
    cases it with
    | byte b =>
      simp only [linkItems, List.any_cons, Item.isPlaceholder, Bool.false_or] at h ⊢
      exact ih h
    | placeholder lib => simp [Item.isPlaceholder]

/-- Claim C5 (linking completeness): the light-client bytecode
preparation never proceeds to deployment with an unresolved library
placeholder: whenever it succeeds, the artifact with the PlonkVerifier
and LightClientStateUpdateVK addresses substituted is placeholder-free;
and if any placeholder would remain after those substitutions, it fails
with a linking error naming the library whose linking step was being
checked. -/
theorem link_light_client_complete (art : BytecodeObject) (pv vk : Address) :
    (∀ bytes, link_light_client_bytecode art pv vk = .ok bytes →
      ((art.link_fully_qualified plonkVerifierLib pv).link_fully_qualified
          stateUpdateVKLib vk).placeholderFree = true) ∧
    (((art.link_fully_qualified plonkVerifierLib pv).link_fully_qualified
          stateUpdateVKLib vk).placeholderFree = false →
      ∃ e, link_light_client_bytecode art pv vk = .error e ∧
        (e = "error linking PlonkVerifier lib" ∨
         e = "error linking LightClientStateUpdateVK lib")) := by
  cases art with
  | bytecode bs =>
    constructor
    · intro bytes _
      simp [BytecodeObject.link_fully_qualified, BytecodeObject.placeholderFree]
    · intro hfalse
      simp [BytecodeObject.link_fully_qualified, BytecodeObject.placeholderFree] at hfalse
  | unlinked code =>
    cases hdec : decodeItems (linkItems code plonkVerifierLib pv) with
    | none =>
      have hP : (linkItems code plonkVerifierLib pv).any Item.isPlaceholder = true :=
        (decodeItems_eq_none_iff _).mp hdec
      constructor
      · intro bytes hok
        simp [link_light_client_bytecode, BytecodeObject.link_fully_qualified,
          BytecodeObject.resolve, hdec] at hok
      · intro _
        refine ⟨"error linking PlonkVerifier lib", ?_, Or.inl rfl⟩
        simp [link_light_client_bytecode, BytecodeObject.link_fully_qualified,
          BytecodeObject.resolve, hdec]
    | some bs =>
      have hP : (linkItems code plonkVerifierLib pv).any Item.isPlaceholder = false := by
        by_contra hc
        rw [Bool.not_eq_false] at hc
        rw [(decodeItems_eq_none_iff _).mpr hc] at hdec
        exact Option.noConfusion hdec
      have hP2 : (linkItems (linkItems code plonkVerifierLib pv) stateUpdateVKLib vk).any
          Item.isPlaceholder = false := by
        by_contra hc
        rw [Bool.not_eq_false] at hc
        rw [any_isPlaceholder_of_linkItems _ _ _ hc] at hP
        exact Bool.noConfusion hP
      constructor
      · intro bytes _
        simp [BytecodeObject.link_fully_qualified, BytecodeObject.placeholderFree, hP2]
      · intro hfalse
        simp [BytecodeObject.link_fully_qualified, BytecodeObject.placeholderFree,
          hP2] at hfalse

/-- Witness for C5: an artifact holding a placeholder of an unknown
library fails with a linking error. -/
theorem link_light_client_complete_witness :
    ∃ e, link_light_client_bytecode
        (.unlinked [.byte 7, .placeholder "contracts/src/X.sol:X"]) 1 2 = .error e ∧
      (e = "error linking PlonkVerifier lib" ∨
       e = "error linking LightClientStateUpdateVK lib") :=
  (link_light_client_complete (.unlinked [.byte 7, .placeholder "contracts/src/X.sol:X"]) 1 2).2
    (by decide)

/-- Helper: a `deploy_tx` call broadcasts only the transaction of the
contract being deployed. -/
theorem broadcast_mem_deploy_tx (s : Contracts) (n : Contract) (tx : Except Err Address)
    (c' : Contract) (h : Event.broadcast c' ∈ (s.deploy_tx n tx).2.1) : c' = n := by
  cases hg : s.entries n with
  | some addr =>
    simp [Contracts.deploy_tx, Contracts.deploy_fn, Contracts.get, hg] at h
  | none =>
    cases tx with
    | ok addr =>
      simpa [Contracts.deploy_tx, Contracts.deploy_fn, Contracts.get, hg] using h
    | error e =>
      simpa [Contracts.deploy_tx, Contracts.deploy_fn, Contracts.get, hg] using h

/-- Helper: a `deploy_tx` call never changes the entry of another contract. -/
theorem deploy_tx_entries_ne (s : Contracts) (n : Contract) (tx : Except Err Address)
    (c : Contract) (h : c ≠ n) : ((s.deploy_tx n tx).1).entries c = s.entries c := by
  cases hg : s.entries n with
  | some addr => simp [Contracts.deploy_tx, Contracts.deploy_fn, Contracts.get, hg]
  | none =>
    cases tx with
    | ok addr =>
      simp [Contracts.deploy_tx, Contracts.deploy_fn, Contracts.get, Contracts.insert, hg, h]
    | error e => simp [Contracts.deploy_tx, Contracts.deploy_fn, Contracts.get, hg]

/-- Helper: a `deploy_tx` of an unrecorded contract whose broadcast fails
returns the error and the attempted-broadcast trace. -/
theorem deploy_tx_fail (s : Contracts) (n : Contract) (e : Err)
    (hg : s.entries n = none) :
    s.deploy_tx n (.error e) = (s, [.invoked n, .broadcast n], .error e) := by
  simp [Contracts.deploy_tx, Contracts.deploy_fn, Contracts.get, hg]

/-- Helper: a `deploy_fn` of an unrecorded contract whose procedure fails
returns the procedure's registry, the procedure's trace after the
invocation notification, and the error. -/
theorem deploy_fn_fail_of_proc (s : Contracts) (n : Contract) (d : DeployProc) (e : Err)
    (hg : s.entries n = none) (hd : (d s).2.2 = .error e) :
    s.deploy_fn n d = ((d s).1, .invoked n :: (d s).2.1, .error e) := by
  simp [Contracts.deploy_fn, Contracts.get, hg, hd]

/-- Helper: when StateUpdateVK is unrecorded and its broadcast fails,
`deploy_light_client_contract` fails and never broadcasts the
light-client (or proxy) deployment. -/
theorem lcc_vk_fail (env : Env) (s : Contracts) (e : Err)
    (hvk : env.vkSend = .error e)
    (hsvk : s.entries .StateUpdateVK = none) :
    (∃ e', (deploy_light_client_contract env s).2.2 = .error e') ∧
    Event.broadcast .LightClient ∉ (deploy_light_client_contract env s).2.1 ∧
    Event.broadcast .LightClientProxy ∉ (deploy_light_client_contract env s).2.1 := by
  cases hmk : env.pvMk with
  | error e0 => simp [deploy_light_client_contract, hmk]
  | ok u =>
    cases hr1 : (s.deploy_tx .PlonkVerifier env.pvSend).2.2 with
    | error e1 =>
      refine ⟨⟨e1, ?_⟩, ?_, ?_⟩ <;> simp only [deploy_light_client_contract, hmk, hr1]
      · intro hmem
        have := broadcast_mem_deploy_tx s .PlonkVerifier env.pvSend .LightClient hmem
        exact absurd this (by decide)
      · intro hmem
        have := broadcast_mem_deploy_tx s .PlonkVerifier env.pvSend .LightClientProxy hmem
        exact absurd this (by decide)
    | ok pv =>
      have hvk2 : ((s.deploy_tx .PlonkVerifier env.pvSend).1).entries .StateUpdateVK = none := by
        rw [deploy_tx_entries_ne s .PlonkVerifier env.pvSend .StateUpdateVK (by decide)]
        exact hsvk
      have hfail := deploy_tx_fail (s.deploy_tx .PlonkVerifier env.pvSend).1 .StateUpdateVK e hvk2
      cases hmk2 : env.vkMk with
      | error e2 =>
        refine ⟨⟨e2, ?_⟩, ?_, ?_⟩ <;> simp only [deploy_light_client_contract, hmk, hr1, hmk2]
        · intro hmem
          have := broadcast_mem_deploy_tx s .PlonkVerifier env.pvSend .LightClient hmem
          exact absurd this (by decide)
        · intro hmem
          have := broadcast_mem_deploy_tx s .PlonkVerifier env.pvSend .LightClientProxy hmem
          exact absurd this (by decide)
      | ok u2 =>
        have hr2 : ((s.deploy_tx .PlonkVerifier env.pvSend).1.deploy_tx .StateUpdateVK
            env.vkSend).2.2 = .error e := by rw [hvk, hfail]
        refine ⟨⟨e, ?_⟩, ?_, ?_⟩ <;>
          simp only [deploy_light_client_contract, hmk, hr1, hmk2, hr2]
        · rw [hvk, hfail]
          intro hmem
          simp at hmem
          have := broadcast_mem_deploy_tx s .PlonkVerifier env.pvSend .LightClient hmem
          exact absurd this (by decide)
        · rw [hvk, hfail]
          intro hmem
          simp at hmem
          have := broadcast_mem_deploy_tx s .PlonkVerifier env.pvSend .LightClientProxy hmem
          exact absurd this (by decide)

/-- Helper: when StateUpdateVK and LightClient are unrecorded and the VK
broadcast fails, the proxy deploy procedure fails and never broadcasts
the light-client or proxy deployment. -/
theorem proxy_proc_vk_fail (env : Env) (s : Contracts) (e : Err)
    (hvk : env.vkSend = .error e)
    (hsvk : s.entries .StateUpdateVK = none)
    (hslc : s.entries .LightClient = none) :
    (∃ e', (deploy_light_client_proxy_proc env s).2.2 = .error e') ∧
    Event.broadcast .LightClient ∉ (deploy_light_client_proxy_proc env s).2.1 ∧
    Event.broadcast .LightClientProxy ∉ (deploy_light_client_proxy_proc env s).2.1 := by
  obtain ⟨⟨e', herr⟩, hnl, hnp⟩ := lcc_vk_fail env s e hvk hsvk
  have hfn := deploy_fn_fail_of_proc s .LightClient (deploy_light_client_contract env) e'
    hslc herr
  have hr : (s.deploy_fn .LightClient (deploy_light_client_contract env)).2.2 =
      .error e' := by rw [hfn]
  refine ⟨⟨e', ?_⟩, ?_, ?_⟩ <;> simp only [deploy_light_client_proxy_proc, hr]
  · intro hmem
    rw [hfn] at hmem
    simp at hmem
    exact hnl hmem
  · intro hmem
    rw [hfn] at hmem
    simp at hmem
    exact hnp hmem

/-- Claim C8 (failure cascade): in any run in which the
LightClientStateUpdateVK deployment fails (it is unrecorded — as are the
light client and the proxy, which is what makes its deployment reachable
— and its broadcast errors), no light-client and no proxy deployment
transaction is ever broadcast, and the run ends in an error, so the
output-writing step never runs. -/
theorem run_vk_fail (env : Env) (s0 : Contracts) (e : Err)
    (hvk : env.vkSend = .error e)
    (h3 : s0.get .StateUpdateVK = none)
    (h4 : s0.get .LightClient = none)
    (h5 : s0.get .LightClientProxy = none) :
    Event.broadcast .LightClient ∉ (runMain env s0).2.1 ∧
    Event.broadcast .LightClientProxy ∉ (runMain env s0).2.1 ∧
    ∃ e', (runMain env s0).2.2 = .error e' := by
  cases hmk : env.hotshotMk with
  | error e0 => simp [runMain, hmk]
  | ok u =>
    have k3 : ((s0.deploy_tx .HotShot env.hotshotSend).1).entries .StateUpdateVK = none := by
      rw [deploy_tx_entries_ne _ _ _ _ (by decide)]; exact h3
    have k4 : ((s0.deploy_tx .HotShot env.hotshotSend).1).entries .LightClient = none := by
      rw [deploy_tx_entries_ne _ _ _ _ (by decide)]; exact h4
    have k5 : ((s0.deploy_tx .HotShot env.hotshotSend).1).entries .LightClientProxy = none := by
      rw [deploy_tx_entries_ne _ _ _ _ (by decide)]; exact h5
    cases hr1 : (s0.deploy_tx .HotShot env.hotshotSend).2.2 with
    | error e1 =>
      refine ⟨?_, ?_, e1, ?_⟩ <;> simp only [runMain, hmk, hr1]
      · intro hmem
        have := broadcast_mem_deploy_tx s0 .HotShot env.hotshotSend .LightClient hmem
        exact absurd this (by decide)
      · intro hmem
        have := broadcast_mem_deploy_tx s0 .HotShot env.hotshotSend .LightClientProxy hmem
        exact absurd this (by decide)
    | ok a =>
      obtain ⟨⟨e', herr⟩, hnl, hnp⟩ :=
        proxy_proc_vk_fail env (s0.deploy_tx .HotShot env.hotshotSend).1 e hvk k3 k4
      have hfn := deploy_fn_fail_of_proc (s0.deploy_tx .HotShot env.hotshotSend).1
        .LightClientProxy (deploy_light_client_proxy_proc env) e' k5 herr
      have hr2 : ((s0.deploy_tx .HotShot env.hotshotSend).1.deploy_fn .LightClientProxy
          (deploy_light_client_proxy_proc env)).2.2 = .error e' := by rw [hfn]
      refine ⟨?_, ?_, e', ?_⟩ <;> simp only [runMain, hmk, hr1, hr2]
      · intro hmem
        rw [hfn] at hmem
        simp at hmem
        rcases hmem with h | h
        · have := broadcast_mem_deploy_tx s0 .HotShot env.hotshotSend .LightClient h
          exact absurd this (by decide)
        · exact hnl h
      · intro hmem
        rw [hfn] at hmem
        simp at hmem
        rcases hmem with h | h
        · have := broadcast_mem_deploy_tx s0 .HotShot env.hotshotSend .LightClientProxy h
          exact absurd this (by decide)
        · exact hnp h

/-- Witness for C8: a concrete run whose VK broadcast fails broadcasts
neither the light client nor the proxy and ends in an error. -/
theorem run_vk_fail_witness :
    Event.broadcast .LightClient ∉
      (runMain
        { hotshotMk := .ok (), hotshotSend := .ok 1, pvMk := .ok (), pvSend := .ok 2,
          vkMk := .ok (), vkSend := .error "vk down", artifact := .ok (.bytecode [0]),
          lcSend := fun _ => .ok 4, genesis := .ok 5, initCalldata := fun _ _ => some 6,
          proxySend := fun _ _ => .ok 7 }
        (Contracts.mk fun _ => none)).2.1 :=
  (run_vk_fail
    { hotshotMk := .ok (), hotshotSend := .ok 1, pvMk := .ok (), pvSend := .ok 2,
      vkMk := .ok (), vkSend := .error "vk down", artifact := .ok (.bytecode [0]),
      lcSend := fun _ => .ok 4, genesis := .ok 5, initCalldata := fun _ _ => some 6,
      proxySend := fun _ _ => .ok 7 }
    (Contracts.mk fun _ => none) "vk down" rfl rfl rfl rfl).1

/-- Claim C9 (implicit): the output file is opened with `create` and
`write` but without truncation, so writing over a longer pre-existing
file keeps the old bytes past the newly written content: the resulting
content is the written lines followed by the tail of the old content,
and in particular differs from the written lines alone. -/
theorem outFile_write_keeps_tail (old data : List Nat) :
    openAndWrite outFileOpenOptions old data = data ++ old.drop data.length ∧
    (data.length < old.length → openAndWrite outFileOpenOptions old data ≠ data) := by
  constructor
  · simp [openAndWrite, outFileOpenOptions]
  · intro hlt heq
    have h1 : data ++ old.drop data.length = data := by
      simpa [openAndWrite, outFileOpenOptions] using heq
    have h2 := congrArg List.length h1
    simp [List.length_append, List.length_drop] at h2
    omega

/-- Witness for C9: writing `[9]` over the pre-existing content
`[1, 2, 3]` leaves `[9, 2, 3]`, not `[9]`. -/
theorem outFile_write_keeps_tail_witness :
    openAndWrite outFileOpenOptions [1, 2, 3] [9] ≠ [9] :=
  (outFile_write_keeps_tail [1, 2, 3] [9]).2 (by decide)

/-- Helper: two registries with equal entry functions are equal. -/
theorem Contracts.entries_ext (s t : Contracts) (h : ∀ c, s.entries c = t.entries c) :
    s = t := by
  cases s
  cases t
  simp only [Contracts.mk.injEq]
  funext c
  exact h c

/-- Helper: overwriting one entry leaves every other entry unchanged. -/
theorem set_entries_ne (s : Contracts) (c₀ n : Contract) (v : Option Address)
    (hn : n ≠ c₀) : (s.set c₀ v).entries n = s.entries n := by
  simp [Contracts.set, hn]

/-- Helper: overwriting an entry with its current value is the identity. -/
theorem set_self (s : Contracts) (c₀ : Contract) : s.set c₀ (s.entries c₀) = s := by
  apply Contracts.entries_ext
  intro c
  by_cases h : c = c₀ <;> simp [Contracts.set, h]

/-- Helper: recording one contract commutes with overwriting a different
contract's entry. -/
theorem insert_set_comm (x : Contracts) (n c₀ : Contract) (addr : Address)
    (v : Option Address) (hn : n ≠ c₀) :
    (x.set c₀ v).insert n addr = (x.insert n addr).set c₀ v := by
  apply Contracts.entries_ext
  intro c
  by_cases hc1 : c = n
  · subst hc1
    simp [Contracts.set, Contracts.insert, hn]
  · by_cases hc2 : c = c₀ <;> simp [Contracts.set, Contracts.insert, hc1, hc2, Ne.symm hn]

/-- Helper: `deploy_fn` neither reads nor writes the entry of a contract
different from the one being deployed, provided its procedure does not
either: the whole outcome commutes with overwriting that entry. -/
theorem deploy_fn_frame (c₀ n : Contract) (hn : n ≠ c₀) (d : DeployProc)
    (hd : ∀ s v, d (s.set c₀ v) = (((d s).1).set c₀ v, (d s).2))
    (s : Contracts) (v : Option Address) :
    (s.set c₀ v).deploy_fn n d =
      (((s.deploy_fn n d).1).set c₀ v, (s.deploy_fn n d).2) := by
  have hg' : (s.set c₀ v).entries n = s.entries n := set_entries_ne s c₀ n v hn
  cases hg : s.entries n with
  | some addr =>
    rw [hg] at hg'
    simp [Contracts.deploy_fn, Contracts.get, hg, hg']
  | none =>
    rw [hg] at hg'
    have hds := hd s v
    cases hr : (d s).2.2 with
    | ok addr =>
      have hr' : (d (s.set c₀ v)).2.2 = .ok addr := by rw [hds]; exact hr
      simp only [Contracts.deploy_fn, Contracts.get, hg, hg', hr, hr', hds]
      rw [insert_set_comm _ _ _ _ _ hn]
    | error e =>
      have hr' : (d (s.set c₀ v)).2.2 = .error e := by rw [hds]; exact hr
      simp only [Contracts.deploy_fn, Contracts.get, hg, hg', hr, hr', hds]

/-- Helper: `deploy_tx` neither reads nor writes the entry of a contract
different from the one being deployed. -/
theorem deploy_tx_frame (c₀ n : Contract) (hn : n ≠ c₀) (tx : Except Err Address)
    (s : Contracts) (v : Option Address) :
    (s.set c₀ v).deploy_tx n tx =
      (((s.deploy_tx n tx).1).set c₀ v, (s.deploy_tx n tx).2) :=
  deploy_fn_frame c₀ n hn _ (fun _ _ => rfl) s v

/-- Helper: `deploy_light_client_contract` neither reads nor writes the
entry of any contract other than the two libraries it resolves. -/
theorem lcc_frame (env : Env) (c₀ : Contract)
    (h1 : Contract.PlonkVerifier ≠ c₀) (h2 : Contract.StateUpdateVK ≠ c₀)
    (s : Contracts) (v : Option Address) :
    deploy_light_client_contract env (s.set c₀ v) =
      (((deploy_light_client_contract env s).1).set c₀ v,
        (deploy_light_client_contract env s).2) := by
  have hPV := deploy_tx_frame c₀ .PlonkVerifier (Ne.symm (Ne.symm h1)) env.pvSend s v
  have hVK := deploy_tx_frame c₀ .StateUpdateVK (Ne.symm (Ne.symm h2)) env.vkSend
    (s.deploy_tx .PlonkVerifier env.pvSend).1 v
  cases hmk : env.pvMk with
  | error e => simp [deploy_light_client_contract, hmk]
  | ok u =>
    simp only [deploy_light_client_contract, hmk, hPV, hVK]
    cases hr1 : (s.deploy_tx .PlonkVerifier env.pvSend).2.2 with
    | error e => simp only [hr1]
    | ok pv =>
      simp only [hr1]
      cases hmk2 : env.vkMk with
      | error e2 => simp only [hmk2]
      | ok u2 =>
        simp only [hmk2]
        cases hr2 : ((s.deploy_tx .PlonkVerifier env.pvSend).1.deploy_tx .StateUpdateVK
            env.vkSend).2.2 with
        | error e3 => simp only [hr2]
        | ok vk =>
          simp only [hr2]
          cases hart : env.artifact with
          | error e4 => simp only [hart]
          | ok art =>
            simp only [hart]
            cases hlink : link_light_client_bytecode art pv vk with
            | error e5 => simp only [hlink]
            | ok bytes =>
              simp only [hlink]
              cases hsend : env.lcSend bytes with
              | error e6 => simp only [hsend]
              | ok addr => simp only [hsend]

/-- Helper: the proxy deploy procedure neither reads nor writes the entry
of any contract other than the light client and the two libraries. -/
theorem proxy_proc_frame (env : Env) (c₀ : Contract)
    (h1 : Contract.PlonkVerifier ≠ c₀) (h2 : Contract.StateUpdateVK ≠ c₀)
    (h3 : Contract.LightClient ≠ c₀)
    (s : Contracts) (v : Option Address) :
    deploy_light_client_proxy_proc env (s.set c₀ v) =
      (((deploy_light_client_proxy_proc env s).1).set c₀ v,
        (deploy_light_client_proxy_proc env s).2) := by
  have hLC := deploy_fn_frame c₀ .LightClient (Ne.symm (Ne.symm h3))
    (deploy_light_client_contract env)
    (fun s' v' => lcc_frame env c₀ h1 h2 s' v') s v
  simp only [deploy_light_client_proxy_proc, hLC]
  cases hr : (s.deploy_fn .LightClient (deploy_light_client_contract env)).2.2 with
  | error e => simp only [hr]
  | ok lc =>
    simp only [hr]
    cases hg : env.genesis with
    | error e => simp only [hg]
    | ok g =>
      simp only [hg]
      cases hcd : env.initCalldata lc g with
      | none => simp only [hcd]
      | some data =>
        simp only [hcd]
        cases hps : env.proxySend lc data with
        | error e => simp only [hps]
        | ok addr => simp only [hps]

/-- Claim C10 (frame property): resolving the light-client proxy chain —
the proxy deploy procedure together with its recursive resolution of the
light client and both libraries — never reads or writes the registry
entry for HotShot: the entire outcome is invariant under overwriting the
HotShot entry with any value, and the HotShot entry after the step
equals the entry before it. -/
theorem proxy_chain_hotshot_frame (env : Env) (s : Contracts) :
    ((s.deploy_fn .LightClientProxy (deploy_light_client_proxy_proc env)).1).entries
        .HotShot = s.entries .HotShot ∧
    ∀ v, (s.set .HotShot v).deploy_fn .LightClientProxy
        (deploy_light_client_proxy_proc env) =
      (((s.deploy_fn .LightClientProxy (deploy_light_client_proxy_proc env)).1).set
          .HotShot v,
        (s.deploy_fn .LightClientProxy (deploy_light_client_proxy_proc env)).2) := by
  have hframe : ∀ v, (s.set .HotShot v).deploy_fn .LightClientProxy
      (deploy_light_client_proxy_proc env) =
      (((s.deploy_fn .LightClientProxy (deploy_light_client_proxy_proc env)).1).set
          .HotShot v,
        (s.deploy_fn .LightClientProxy (deploy_light_client_proxy_proc env)).2) :=
    fun v => deploy_fn_frame .HotShot .LightClientProxy (by decide)
      (deploy_light_client_proxy_proc env)
      (fun s' v' => proxy_proc_frame env .HotShot (by decide) (by decide) (by decide) s' v')
      s v
  refine ⟨?_, hframe⟩
  have h0 := hframe (s.entries .HotShot)
  rw [set_self] at h0
  have h1 := congrArg (fun r => (r.1).entries Contract.HotShot) h0
  simpa [Contracts.set] using h1

/-- Helper: decomposing a concatenation at a distinguished element: the
element lies either in the first part (with the prefix inside it) or in
the second part (with the prefix extending across the first part). -/
theorem append_cons_split {α : Type} {t₁ t₂ l₁ l₂ : List α} {x : α}
    (h : t₁ ++ t₂ = l₁ ++ x :: l₂) :
    (∃ m, t₁ = l₁ ++ x :: m) ∨ (∃ m, l₁ = t₁ ++ m ∧ t₂ = m ++ x :: l₂) := by
  rcases List.append_eq_append_iff.mp h with ⟨a', ha1, ha2⟩ | ⟨c', hc1, hc2⟩
  · exact Or.inr ⟨a', ha1, ha2⟩
  · cases c' with
    | nil =>
      refine Or.inr ⟨[], by simpa using hc1.symm, by simpa using hc2.symm⟩
    | cons y m =>
      have hy : x = y ∧ l₂ = m ++ t₂ := by simpa using hc2
      refine Or.inl ⟨m, ?_⟩
      rw [hc1, hy.1]

/-- Helper: a resolution found in a trace is found in any right extension. -/
theorem resolvedIn_append_left (l t : List Event) (c : Contract) (a : Address)
    (h : resolvedIn l c a) : resolvedIn (l ++ t) c a :=
  h.imp (fun hm => List.mem_append_left t hm) fun hm => List.mem_append_left t hm

/-- Helper: a resolution found in a trace is found in any left extension. -/
theorem resolvedIn_append_right (t l : List Event) (c : Contract) (a : Address)
    (h : resolvedIn l c a) : resolvedIn (t ++ l) c a :=
  h.imp (fun hm => List.mem_append_right t hm) fun hm => List.mem_append_right t hm

/-- Helper: a trace with no linking event is trivially link-guarded. -/
theorem linkGuarded_of_no_link (tr : List Event)
    (h : ∀ pv vk, Event.linkAttempt pv vk ∉ tr) : LinkGuarded tr := by
  intro l₁ pv vk l₂ heq
  have hmem : Event.linkAttempt pv vk ∈ tr := by
    rw [heq]
    exact List.mem_append_right l₁ (List.mem_cons_self _ _)
  exact absurd hmem (h pv vk)

/-- Helper: link-guardedness is preserved by concatenation. -/
theorem linkGuarded_append (t₁ t₂ : List Event)
    (h₁ : LinkGuarded t₁) (h₂ : LinkGuarded t₂) : LinkGuarded (t₁ ++ t₂) := by
  intro l₁ pv vk l₂ heq
  rcases append_cons_split heq with ⟨m, hm⟩ | ⟨m, hl, hm⟩
  · exact h₁ l₁ pv vk m hm
  · have hres := h₂ m pv vk l₂ hm
    rw [hl]
    exact ⟨resolvedIn_append_right t₁ m _ _ hres.1, resolvedIn_append_right t₁ m _ _ hres.2⟩

/-- Helper: appending one linking event to a link-free trace containing
the two resolutions it uses yields a link-guarded trace. -/
theorem linkGuarded_append_link (t : List Event) (pv vk : Address)
    (hres1 : resolvedIn t .PlonkVerifier pv) (hres2 : resolvedIn t .StateUpdateVK vk)
    (hno : ∀ pv' vk', Event.linkAttempt pv' vk' ∉ t) :
    LinkGuarded (t ++ [Event.linkAttempt pv vk]) := by
  intro l₁ pv' vk' l₂ heq
  rcases append_cons_split heq with ⟨m, hm⟩ | ⟨m, hl, hm⟩
  · have hmem : Event.linkAttempt pv' vk' ∈ t := by
      rw [hm]
      exact List.mem_append_right l₁ (List.mem_cons_self _ _)
    exact absurd hmem (hno pv' vk')
  · cases m with
    | nil =>
      have hx : Event.linkAttempt pv vk = Event.linkAttempt pv' vk' := by
        simpa using congrArg (fun l => l.head?) hm
      have hl' : l₁ = t := by simpa using hl
      cases hx
      rw [hl']
      exact ⟨hres1, hres2⟩
    | cons y m' => simp at hm

/-- Helper: a trace with no calldata event is trivially calldata-guarded. -/
theorem calldataGuarded_of_no_calldata (tr : List Event)
    (h : ∀ lc d, Event.calldataBuilt lc d ∉ tr) : CalldataGuarded tr := by
  intro l₁ lc d l₂ heq
  have hmem : Event.calldataBuilt lc d ∈ tr := by
    rw [heq]
    exact List.mem_append_right l₁ (List.mem_cons_self _ _)
  exact absurd hmem (h lc d)

/-- Helper: calldata-guardedness is preserved by concatenation. -/
theorem calldataGuarded_append (t₁ t₂ : List Event)
    (h₁ : CalldataGuarded t₁) (h₂ : CalldataGuarded t₂) : CalldataGuarded (t₁ ++ t₂) := by
  intro l₁ lc d l₂ heq
  rcases append_cons_split heq with ⟨m, hm⟩ | ⟨m, hl, hm⟩
  · exact h₁ l₁ lc d m hm
  · have hres := h₂ m lc d l₂ hm
    rw [hl]
    exact resolvedIn_append_right t₁ m _ _ hres

/-- Helper: appending the genesis/calldata/broadcast tail of the proxy
procedure to a calldata-free trace containing the light-client
resolution yields a calldata-guarded trace. -/
theorem calldataGuarded_append_tail (t : List Event) (lc : Address) (g : Genesis)
    (d : Calldata) (c' : Contract)
    (hres : resolvedIn t .LightClient lc)
    (hno : ∀ lc' d', Event.calldataBuilt lc' d' ∉ t) :
    CalldataGuarded
      (t ++ [Event.genesisFetched g, Event.calldataBuilt lc d, Event.broadcast c']) := by
  intro l₁ lc' d' l₂ heq
  rcases append_cons_split heq with ⟨m, hm⟩ | ⟨m, hl, hm⟩
  · have hmem : Event.calldataBuilt lc' d' ∈ t := by
      rw [hm]
      exact List.mem_append_right l₁ (List.mem_cons_self _ _)
    exact absurd hmem (hno lc' d')
  · cases m with
    | nil => simp at hm
    | cons y m' =>
      cases m' with
      | nil =>
        have hm' : Event.calldataBuilt lc d = Event.calldataBuilt lc' d' := by
          have := congrArg (fun l => l.tail.head?) hm
          simpa using this
        cases hm'
        rw [hl]
        exact resolvedIn_append_left t [y] _ _ hres
      | cons z m'' =>
        cases m'' with
        | nil =>
          have := congrArg (fun l => l.tail.tail.head?) hm
          simp at this
        | cons w m''' =>
          have := congrArg List.length hm
          simp at this

/-- Helper: link-guardedness is preserved by prepending a non-linking
event. -/
theorem linkGuarded_cons (e : Event) (tr : List Event)
    (he : ∀ pv vk, e ≠ Event.linkAttempt pv vk) (h : LinkGuarded tr) :
    LinkGuarded (e :: tr) := by
  intro l₁ pv vk l₂ heq
  cases l₁ with
  | nil =>
    have : e = Event.linkAttempt pv vk := by simpa using congrArg List.head? heq
    exact absurd this (he pv vk)
  | cons y l₁' =>
    have hy : y = e ∧ tr = l₁' ++ Event.linkAttempt pv vk :: l₂ := by
      have h1 := congrArg List.head? heq
      have h2 := congrArg List.tail heq
      simp at h1 h2
      exact ⟨h1.symm, h2⟩
    have hres := h l₁' pv vk l₂ hy.2
    exact ⟨resolvedIn_append_right [y] l₁' _ _ hres.1,
      resolvedIn_append_right [y] l₁' _ _ hres.2⟩

/-- Helper: calldata-guardedness is preserved by prepending a
non-calldata event. -/
theorem calldataGuarded_cons (e : Event) (tr : List Event)
    (he : ∀ lc d, e ≠ Event.calldataBuilt lc d) (h : CalldataGuarded tr) :
    CalldataGuarded (e :: tr) := by
  intro l₁ lc d l₂ heq
  cases l₁ with
  | nil =>
    have : e = Event.calldataBuilt lc d := by simpa using congrArg List.head? heq
    exact absurd this (he lc d)
  | cons y l₁' =>
    have hy : y = e ∧ tr = l₁' ++ Event.calldataBuilt lc d :: l₂ := by
      have h1 := congrArg List.head? heq
      have h2 := congrArg List.tail heq
      simp at h1 h2
      exact ⟨h1.symm, h2⟩
    exact resolvedIn_append_right [y] l₁' _ _ (h l₁' lc d l₂ hy.2)

/-- Helper: the trace of a `deploy_tx` call holds only the skipped,
invoked, broadcast and deployed notifications of the deployed contract. -/
theorem mem_deploy_tx_trace (s : Contracts) (n : Contract) (tx : Except Err Address)
    (e : Event) (h : e ∈ (s.deploy_tx n tx).2.1) :
    (∃ a, e = .skipped n a) ∨ e = .invoked n ∨ e = .broadcast n ∨
      ∃ a, e = .deployed n a := by
  cases hg : s.entries n with
  | some addr =>
    simp [Contracts.deploy_tx, Contracts.deploy_fn, Contracts.get, hg] at h
    exact Or.inl ⟨addr, h⟩
  | none =>
    cases tx with
    | ok addr =>
      simp [Contracts.deploy_tx, Contracts.deploy_fn, Contracts.get, hg] at h
      rcases h with h | h | h
      · exact Or.inr (Or.inl h)
      · exact Or.inr (Or.inr (Or.inl h))
      · exact Or.inr (Or.inr (Or.inr ⟨addr, h⟩))
    | error e' =>
      simp [Contracts.deploy_tx, Contracts.deploy_fn, Contracts.get, hg] at h
      rcases h with h | h
      · exact Or.inr (Or.inl h)
      · exact Or.inr (Or.inr (Or.inl h))

/-- Helper: a `deploy_tx` call never links bytecode. -/
theorem deploy_tx_no_link (s : Contracts) (n : Contract) (tx : Except Err Address) :
    ∀ pv vk, Event.linkAttempt pv vk ∉ (s.deploy_tx n tx).2.1 := by
  intro pv vk hmem
  rcases mem_deploy_tx_trace s n tx _ hmem with ⟨a, h⟩ | h | h | ⟨a, h⟩ <;> simp at h

/-- Helper: a `deploy_tx` call never builds initialization calldata. -/
theorem deploy_tx_no_calldata (s : Contracts) (n : Contract) (tx : Except Err Address) :
    ∀ lc d, Event.calldataBuilt lc d ∉ (s.deploy_tx n tx).2.1 := by
  intro lc d hmem
  rcases mem_deploy_tx_trace s n tx _ hmem with ⟨a, h⟩ | h | h | ⟨a, h⟩ <;> simp at h

/-- Helper: a successful `deploy_fn` leaves a resolution of its contract
at the returned address in its trace. -/
theorem deploy_fn_resolved (s : Contracts) (n : Contract) (d : DeployProc) (a : Address)
    (h : (s.deploy_fn n d).2.2 = .ok a) :
    resolvedIn (s.deploy_fn n d).2.1 n a := by
  cases hg : s.entries n with
  | some addr =>
    have haddr : addr = a := by
      simpa [Contracts.deploy_fn, Contracts.get, hg] using h
    subst haddr
    simp [Contracts.deploy_fn, Contracts.get, hg, resolvedIn]
  | none =>
    cases hr : (d s).2.2 with
    | ok addr =>
      have haddr : addr = a := by
        simpa [Contracts.deploy_fn, Contracts.get, hg, hr] using h
      subst haddr
      simp [Contracts.deploy_fn, Contracts.get, hg, hr, resolvedIn]
    | error e => simp [Contracts.deploy_fn, Contracts.get, hg, hr] at h

/-- Helper: a successful `deploy_tx` leaves a resolution of its contract
at the returned address in its trace. -/
theorem deploy_tx_resolved (s : Contracts) (n : Contract) (tx : Except Err Address)
    (a : Address) (h : (s.deploy_tx n tx).2.2 = .ok a) :
    resolvedIn (s.deploy_tx n tx).2.1 n a :=
  deploy_fn_resolved s n _ a h

/-- Helper: the trace of `deploy_light_client_contract` is link-guarded:
its only linking event comes after both library resolutions, with their
addresses. -/
theorem lcc_linkGuarded (env : Env) (s : Contracts) :
    LinkGuarded (deploy_light_client_contract env s).2.1 := by
  have noPV := deploy_tx_no_link s .PlonkVerifier env.pvSend
  have noVK := deploy_tx_no_link (s.deploy_tx .PlonkVerifier env.pvSend).1
    .StateUpdateVK env.vkSend
  have hnoPVVK : ∀ pv' vk', Event.linkAttempt pv' vk' ∉
      (s.deploy_tx .PlonkVerifier env.pvSend).2.1 ++
        ((s.deploy_tx .PlonkVerifier env.pvSend).1.deploy_tx .StateUpdateVK
          env.vkSend).2.1 := by
    intro pv' vk' hmem
    rcases List.mem_append.mp hmem with h | h
    · exact noPV pv' vk' h
    · exact noVK pv' vk' h
  cases hmk : env.pvMk with
  | error e =>
    simp only [deploy_light_client_contract, hmk]
    exact linkGuarded_of_no_link _ (by simp)
  | ok u =>
    cases hr1 : (s.deploy_tx .PlonkVerifier env.pvSend).2.2 with
    | error e =>
      simp only [deploy_light_client_contract, hmk, hr1]
      exact linkGuarded_of_no_link _ noPV
    | ok pv =>
      cases hmk2 : env.vkMk with
      | error e2 =>
        simp only [deploy_light_client_contract, hmk, hr1, hmk2]
        exact linkGuarded_of_no_link _ noPV
      | ok u2 =>
        cases hr2 : ((s.deploy_tx .PlonkVerifier env.pvSend).1.deploy_tx .StateUpdateVK
            env.vkSend).2.2 with
        | error e3 =>
          simp only [deploy_light_client_contract, hmk, hr1, hmk2, hr2]
          exact linkGuarded_append _ _ (linkGuarded_of_no_link _ noPV)
            (linkGuarded_of_no_link _ noVK)
        | ok vk =>
          have hlg : LinkGuarded
              ((s.deploy_tx .PlonkVerifier env.pvSend).2.1 ++
                ((s.deploy_tx .PlonkVerifier env.pvSend).1.deploy_tx .StateUpdateVK
                  env.vkSend).2.1 ++ [Event.linkAttempt pv vk]) :=
            linkGuarded_append_link _ pv vk
              (resolvedIn_append_left _ _ _ _
                (deploy_tx_resolved s .PlonkVerifier env.pvSend pv hr1))
              (resolvedIn_append_right _ _ _ _
                (deploy_tx_resolved _ .StateUpdateVK env.vkSend vk hr2))
              hnoPVVK
          cases hart : env.artifact with
          | error e4 =>
            simp only [deploy_light_client_contract, hmk, hr1, hmk2, hr2, hart]
            exact linkGuarded_append _ _ (linkGuarded_of_no_link _ noPV)
              (linkGuarded_of_no_link _ noVK)
          | ok art =>
            cases hlink : link_light_client_bytecode art pv vk with
            | error e5 =>
              simp only [deploy_light_client_contract, hmk, hr1, hmk2, hr2, hart, hlink]
              exact hlg
            | ok bytes =>
              cases hsend : env.lcSend bytes with
              | error e6 =>
                simp only [deploy_light_client_contract, hmk, hr1, hmk2, hr2, hart,
                  hlink, hsend]
                exact linkGuarded_append _ _ hlg (linkGuarded_of_no_link _ (by simp))
              | ok addr =>
                simp only [deploy_light_client_contract, hmk, hr1, hmk2, hr2, hart,
                  hlink, hsend]
                exact linkGuarded_append _ _ hlg (linkGuarded_of_no_link _ (by simp))

/-- Helper: `deploy_light_client_contract` never builds initialization
calldata. -/
theorem lcc_no_calldata (env : Env) (s : Contracts) :
    ∀ lc d, Event.calldataBuilt lc d ∉ (deploy_light_client_contract env s).2.1 := by
  intro lc d hmem
  have noPV := deploy_tx_no_calldata s .PlonkVerifier env.pvSend
  have noVK := deploy_tx_no_calldata (s.deploy_tx .PlonkVerifier env.pvSend).1
    .StateUpdateVK env.vkSend
  cases hmk : env.pvMk with
  | error e =>
    simp only [deploy_light_client_contract, hmk] at hmem
    simp at hmem
  | ok u =>
    cases hr1 : (s.deploy_tx .PlonkVerifier env.pvSend).2.2 with
    | error e =>
      simp only [deploy_light_client_contract, hmk, hr1] at hmem
      exact noPV lc d hmem
    | ok pv =>
      cases hmk2 : env.vkMk with
      | error e2 =>
        simp only [deploy_light_client_contract, hmk, hr1, hmk2] at hmem
        exact noPV lc d hmem
      | ok u2 =>
        cases hr2 : ((s.deploy_tx .PlonkVerifier env.pvSend).1.deploy_tx .StateUpdateVK
            env.vkSend).2.2 with
        | error e3 =>
          simp only [deploy_light_client_contract, hmk, hr1, hmk2, hr2] at hmem
          rcases List.mem_append.mp hmem with h | h
          · exact noPV lc d h
          · exact noVK lc d h
        | ok vk =>
          cases hart : env.artifact with
          | error e4 =>
            simp only [deploy_light_client_contract, hmk, hr1, hmk2, hr2, hart] at hmem
            rcases List.mem_append.mp hmem with h | h
            · exact noPV lc d h
            · exact noVK lc d h
          | ok art =>
            cases hlink : link_light_client_bytecode art pv vk with
            | error e5 =>
              simp only [deploy_light_client_contract, hmk, hr1, hmk2, hr2, hart,
                hlink] at hmem
              rcases List.mem_append.mp hmem with h | h
              · rcases List.mem_append.mp h with h' | h'
                · exact noPV lc d h'
                · exact noVK lc d h'
              · simp at h
            | ok bytes =>
              cases hsend : env.lcSend bytes with
              | error e6 =>
                simp only [deploy_light_client_contract, hmk, hr1, hmk2, hr2, hart,
                  hlink, hsend] at hmem
                rcases List.mem_append.mp hmem with h | h
                · rcases List.mem_append.mp h with h' | h'
                  · rcases List.mem_append.mp h' with h'' | h''
                    · exact noPV lc d h''
                    · exact noVK lc d h''
                  · simp at h'
                · simp at h
              | ok addr =>
                simp only [deploy_light_client_contract, hmk, hr1, hmk2, hr2, hart,
                  hlink, hsend] at hmem
                rcases List.mem_append.mp hmem with h | h
                · rcases List.mem_append.mp h with h' | h'
                  · rcases List.mem_append.mp h' with h'' | h''
                    · exact noPV lc d h''
                    · exact noVK lc d h''
                  · simp at h'
                · simp at h

/-- Helper: `deploy_fn` keeps the trace link-guarded when its procedure's
trace is. -/
theorem deploy_fn_linkGuarded (s : Contracts) (n : Contract) (d : DeployProc)
    (hd : LinkGuarded (d s).2.1) : LinkGuarded (s.deploy_fn n d).2.1 := by
  cases hg : s.entries n with
  | some addr =>
    simp only [Contracts.deploy_fn, Contracts.get, hg]
    exact linkGuarded_of_no_link _ (by simp)
  | none =>
    cases hr : (d s).2.2 with
    | ok addr =>
      simp only [Contracts.deploy_fn, Contracts.get, hg, hr]
      exact linkGuarded_cons _ _ (by simp)
        (linkGuarded_append _ _ hd (linkGuarded_of_no_link _ (by simp)))
    | error e =>
      simp only [Contracts.deploy_fn, Contracts.get, hg, hr]
      exact linkGuarded_cons _ _ (by simp) hd

/-- Helper: `deploy_fn` keeps the trace calldata-guarded when its
procedure's trace is. -/
theorem deploy_fn_calldataGuarded (s : Contracts) (n : Contract) (d : DeployProc)
    (hd : CalldataGuarded (d s).2.1) : CalldataGuarded (s.deploy_fn n d).2.1 := by
  cases hg : s.entries n with
  | some addr =>
    simp only [Contracts.deploy_fn, Contracts.get, hg]
    exact calldataGuarded_of_no_calldata _ (by simp)
  | none =>
    cases hr : (d s).2.2 with
    | ok addr =>
      simp only [Contracts.deploy_fn, Contracts.get, hg, hr]
      exact calldataGuarded_cons _ _ (by simp)
        (calldataGuarded_append _ _ hd (calldataGuarded_of_no_calldata _ (by simp)))
    | error e =>
      simp only [Contracts.deploy_fn, Contracts.get, hg, hr]
      exact calldataGuarded_cons _ _ (by simp) hd

/-- Helper: `deploy_fn` builds no calldata when its procedure builds none. -/
theorem deploy_fn_no_calldata (s : Contracts) (n : Contract) (d : DeployProc)
    (hd : ∀ lc dd, Event.calldataBuilt lc dd ∉ (d s).2.1) :
    ∀ lc dd, Event.calldataBuilt lc dd ∉ (s.deploy_fn n d).2.1 := by
  intro lc dd hmem
  cases hg : s.entries n with
  | some addr => simp [Contracts.deploy_fn, Contracts.get, hg] at hmem
  | none =>
    cases hr : (d s).2.2 with
    | ok addr =>
      simp only [Contracts.deploy_fn, Contracts.get, hg, hr] at hmem
      simp at hmem
      exact hd lc dd hmem
    | error e =>
      simp only [Contracts.deploy_fn, Contracts.get, hg, hr] at hmem
      simp at hmem
      exact hd lc dd hmem

/-- Helper: the proxy deploy procedure's trace is link-guarded. -/
theorem proxy_proc_linkGuarded (env : Env) (s : Contracts) :
    LinkGuarded (deploy_light_client_proxy_proc env s).2.1 := by
  have hLC := deploy_fn_linkGuarded s .LightClient (deploy_light_client_contract env)
    (lcc_linkGuarded env s)
  cases hr : (s.deploy_fn .LightClient (deploy_light_client_contract env)).2.2 with
  | error e =>
    simp only [deploy_light_client_proxy_proc, hr]
    exact hLC
  | ok lc =>
    cases hg : env.genesis with
    | error e =>
      simp only [deploy_light_client_proxy_proc, hr, hg]
      exact hLC
    | ok g =>
      cases hcd : env.initCalldata lc g with
      | none =>
        simp only [deploy_light_client_proxy_proc, hr, hg, hcd]
        exact linkGuarded_append _ _ hLC (linkGuarded_of_no_link _ (by simp))
      | some data =>
        cases hps : env.proxySend lc data with
        | error e =>
          simp only [deploy_light_client_proxy_proc, hr, hg, hcd, hps]
          exact linkGuarded_append _ _ hLC (linkGuarded_of_no_link _ (by simp))
        | ok addr =>
          simp only [deploy_light_client_proxy_proc, hr, hg, hcd, hps]
          exact linkGuarded_append _ _ hLC (linkGuarded_of_no_link _ (by simp))

/-- Helper: the proxy deploy procedure's trace is calldata-guarded: its
only calldata event comes after the light-client resolution, with its
address. -/
theorem proxy_proc_calldataGuarded (env : Env) (s : Contracts) :
    CalldataGuarded (deploy_light_client_proxy_proc env s).2.1 := by
  have hno := deploy_fn_no_calldata s .LightClient (deploy_light_client_contract env)
    (lcc_no_calldata env s)
  cases hr : (s.deploy_fn .LightClient (deploy_light_client_contract env)).2.2 with
  | error e =>
    simp only [deploy_light_client_proxy_proc, hr]
    exact calldataGuarded_of_no_calldata _ hno
  | ok lc =>
    have hres := deploy_fn_resolved s .LightClient (deploy_light_client_contract env) lc hr
    cases hg : env.genesis with
    | error e =>
      simp only [deploy_light_client_proxy_proc, hr, hg]
      exact calldataGuarded_of_no_calldata _ hno
    | ok g =>
      cases hcd : env.initCalldata lc g with
      | none =>
        simp only [deploy_light_client_proxy_proc, hr, hg, hcd]
        refine calldataGuarded_of_no_calldata _ ?_
        intro lc' d' hmem
        rcases List.mem_append.mp hmem with h | h
        · exact hno lc' d' h
        · simp at h
      | some data =>
        cases hps : env.proxySend lc data with
        | error e =>
          simp only [deploy_light_client_proxy_proc, hr, hg, hcd, hps]
          exact calldataGuarded_append_tail _ lc g data .LightClientProxy hres hno
        | ok addr =>
          simp only [deploy_light_client_proxy_proc, hr, hg, hcd, hps]
          exact calldataGuarded_append_tail _ lc g data .LightClientProxy hres hno

/-- Claim C6 (dependency ordering): in every run, any bytecode-linking
attempt is preceded in the trace by resolutions of both library
addresses it uses (PlonkVerifier and LightClientStateUpdateVK), and any
initialization-calldata construction is preceded by a resolution of the
light-client address it targets. -/
theorem run_dependency_order (env : Env) (s0 : Contracts) :
    (∀ l₁ pv vk l₂,
        (runMain env s0).2.1 = l₁ ++ Event.linkAttempt pv vk :: l₂ →
        resolvedIn l₁ .PlonkVerifier pv ∧ resolvedIn l₁ .StateUpdateVK vk) ∧
    (∀ l₁ lc d l₂,
        (runMain env s0).2.1 = l₁ ++ Event.calldataBuilt lc d :: l₂ →
        resolvedIn l₁ .LightClient lc) := by
  have hP := deploy_fn_linkGuarded (s0.deploy_tx .HotShot env.hotshotSend).1
    .LightClientProxy (deploy_light_client_proxy_proc env)
    (proxy_proc_linkGuarded env _)
  have hPc := deploy_fn_calldataGuarded (s0.deploy_tx .HotShot env.hotshotSend).1
    .LightClientProxy (deploy_light_client_proxy_proc env)
    (proxy_proc_calldataGuarded env _)
  have hHl := linkGuarded_of_no_link _ (deploy_tx_no_link s0 .HotShot env.hotshotSend)
  have hHc := calldataGuarded_of_no_calldata _
    (deploy_tx_no_calldata s0 .HotShot env.hotshotSend)
  cases hmk : env.hotshotMk with
  | error e =>
    simp only [runMain, hmk]
    exact ⟨linkGuarded_of_no_link _ (by simp), calldataGuarded_of_no_calldata _ (by simp)⟩
  | ok u =>
    cases hr1 : (s0.deploy_tx .HotShot env.hotshotSend).2.2 with
    | error e =>
      simp only [runMain, hmk, hr1]
      exact ⟨hHl, hHc⟩
    | ok a =>
      cases hr2 : ((s0.deploy_tx .HotShot env.hotshotSend).1.deploy_fn .LightClientProxy
          (deploy_light_client_proxy_proc env)).2.2 with
      | error e =>
        simp only [runMain, hmk, hr1, hr2]
        exact ⟨linkGuarded_append _ _ hHl hP, calldataGuarded_append _ _ hHc hPc⟩
      | ok b =>
        simp only [runMain, hmk, hr1, hr2]
        exact ⟨linkGuarded_append _ _ hHl hP, calldataGuarded_append _ _ hHc hPc⟩

/-- Witness for C6: in a concrete fully successful run, the linking
event is preceded by the resolutions of both libraries at the linked
addresses, and the calldata event by the light-client resolution at the
targeted address. -/
theorem run_dependency_order_witness :
    (resolvedIn
        [Event.invoked .HotShot, Event.broadcast .HotShot, Event.deployed .HotShot 1,
          Event.invoked .LightClientProxy, Event.invoked .LightClient,
          Event.invoked .PlonkVerifier, Event.broadcast .PlonkVerifier,
          Event.deployed .PlonkVerifier 2, Event.invoked .StateUpdateVK,
          Event.broadcast .StateUpdateVK, Event.deployed .StateUpdateVK 3]
        .PlonkVerifier 2 ∧
      resolvedIn
        [Event.invoked .HotShot, Event.broadcast .HotShot, Event.deployed .HotShot 1,
          Event.invoked .LightClientProxy, Event.invoked .LightClient,
          Event.invoked .PlonkVerifier, Event.broadcast .PlonkVerifier,
          Event.deployed .PlonkVerifier 2, Event.invoked .StateUpdateVK,
          Event.broadcast .StateUpdateVK, Event.deployed .StateUpdateVK 3]
        .StateUpdateVK 3) ∧
    resolvedIn
      [Event.invoked .HotShot, Event.broadcast .HotShot, Event.deployed .HotShot 1,
        Event.invoked .LightClientProxy, Event.invoked .LightClient,
        Event.invoked .PlonkVerifier, Event.broadcast .PlonkVerifier,
        Event.deployed .PlonkVerifier 2, Event.invoked .StateUpdateVK,
        Event.broadcast .StateUpdateVK, Event.deployed .StateUpdateVK 3,
        Event.linkAttempt 2 3, Event.broadcast .LightClient,
        Event.deployed .LightClient 4, Event.genesisFetched 5]
      .LightClient 4 := by
  constructor
  · exact (run_dependency_order envLinkW regEmpty).1
      [Event.invoked .HotShot, Event.broadcast .HotShot, Event.deployed .HotShot 1,
        Event.invoked .LightClientProxy, Event.invoked .LightClient,
        Event.invoked .PlonkVerifier, Event.broadcast .PlonkVerifier,
        Event.deployed .PlonkVerifier 2, Event.invoked .StateUpdateVK,
        Event.broadcast .StateUpdateVK, Event.deployed .StateUpdateVK 3]
      2 3
      [Event.broadcast .LightClient, Event.deployed .LightClient 4,
        Event.genesisFetched 5, Event.calldataBuilt 4 6,
        Event.broadcast .LightClientProxy, Event.deployed .LightClientProxy 7]
      (by rfl)
  · exact (run_dependency_order envLinkW regEmpty).2
      [Event.invoked .HotShot, Event.broadcast .HotShot, Event.deployed .HotShot 1,
        Event.invoked .LightClientProxy, Event.invoked .LightClient,
        Event.invoked .PlonkVerifier, Event.broadcast .PlonkVerifier,
        Event.deployed .PlonkVerifier 2, Event.invoked .StateUpdateVK,
        Event.broadcast .StateUpdateVK, Event.deployed .StateUpdateVK 3,
        Event.linkAttempt 2 3, Event.broadcast .LightClient,
        Event.deployed .LightClient 4, Event.genesisFetched 5]
      4 6
      [Event.broadcast .LightClientProxy, Event.deployed .LightClientProxy 7]
      (by rfl)

/-- Helper: one `deploy_fn` call invokes the procedure for `c` at most
once more than the procedure itself does. -/
theorem invokedCount_deploy_fn_le (s : Contracts) (n : Contract) (d : DeployProc)
    (c : Contract) :
    invokedCount (s.deploy_fn n d).2.1 c ≤
      (if c = n then 1 else 0) + invokedCount (d s).2.1 c := by
  cases hg : s.entries n with
  | some addr => simp [Contracts.deploy_fn, Contracts.get, hg, invokedCount]
  | none =>
    cases hr : (d s).2.2 with
    | ok addr =>
      simp only [Contracts.deploy_fn, Contracts.get, hg, hr, invokedCount,
        List.countP_cons, List.countP_append, List.countP_nil]
      by_cases hc : c = n
      · subst hc; simp; omega
      · simp [Ne.symm hc]
    | error e =>
      simp only [Contracts.deploy_fn, Contracts.get, hg, hr, invokedCount,
        List.countP_cons, List.countP_append, List.countP_nil]
      by_cases hc : c = n
      · subst hc; simp; omega
      · simp [Ne.symm hc]

/-- Helper: one `deploy_tx` call invokes the deploy procedure for `c` at
most once, and only when `c` is the contract being deployed. -/
theorem invokedCount_deploy_tx_le (s : Contracts) (n : Contract)
    (tx : Except Err Address) (c : Contract) :
    invokedCount (s.deploy_tx n tx).2.1 c ≤ if c = n then 1 else 0 := by
  have h := invokedCount_deploy_fn_le s n (fun s' => (s', [.broadcast n], tx)) c
  simpa [Contracts.deploy_tx, invokedCount] using h

/-- Helper: `deploy_light_client_contract` invokes only the PlonkVerifier
and StateUpdateVK procedures, each at most once. -/
theorem invokedCount_lcc_le (env : Env) (s : Contracts) (c : Contract) :
    invokedCount (deploy_light_client_contract env s).2.1 c ≤
      (if c = Contract.PlonkVerifier then 1 else 0) +
      (if c = Contract.StateUpdateVK then 1 else 0) := by
  have hPV := invokedCount_deploy_tx_le s .PlonkVerifier env.pvSend c
  have hVK := invokedCount_deploy_tx_le (s.deploy_tx .PlonkVerifier env.pvSend).1
    .StateUpdateVK env.vkSend c
  cases hmk : env.pvMk with
  | error e => simp [deploy_light_client_contract, hmk, invokedCount]
  | ok u =>
    cases hr1 : (s.deploy_tx .PlonkVerifier env.pvSend).2.2 with
    | error e =>
      simp only [deploy_light_client_contract, hmk, hr1]
      omega
    | ok pv =>
      cases hmk2 : env.vkMk with
      | error e =>
        simp only [deploy_light_client_contract, hmk, hr1, hmk2]
        omega
      | ok u2 =>
        cases hr2 : ((s.deploy_tx .PlonkVerifier env.pvSend).1.deploy_tx
            .StateUpdateVK env.vkSend).2.2 with
        | error e =>
          simp only [deploy_light_client_contract, hmk, hr1, hmk2, hr2, invokedCount,
            List.countP_append] at hPV hVK ⊢
          omega
        | ok vk =>
          cases hart : env.artifact with
          | error e =>
            simp only [deploy_light_client_contract, hmk, hr1, hmk2, hr2, hart,
              invokedCount, List.countP_append] at hPV hVK ⊢
            omega
          | ok art =>
            cases hlink : link_light_client_bytecode art pv vk with
            | error e =>
              simp only [deploy_light_client_contract, hmk, hr1, hmk2, hr2, hart, hlink,
                invokedCount, List.countP_append, List.countP_cons, List.countP_nil] at hPV hVK ⊢
              try simp
              omega
            | ok bytes =>
              cases hsend : env.lcSend bytes with
              | error e =>
                simp only [deploy_light_client_contract, hmk, hr1, hmk2, hr2, hart, hlink,
                  hsend, invokedCount, List.countP_append, List.countP_cons,
                  List.countP_nil] at hPV hVK ⊢
                try simp
                omega
              | ok addr =>
                simp only [deploy_light_client_contract, hmk, hr1, hmk2, hr2, hart, hlink,
                  hsend, invokedCount, List.countP_append, List.countP_cons,
                  List.countP_nil] at hPV hVK ⊢
                try simp
                omega

/-- Helper: the proxy deploy procedure invokes only the LightClient,
PlonkVerifier and StateUpdateVK procedures, each at most once. -/
theorem invokedCount_proxy_proc_le (env : Env) (s : Contracts) (c : Contract) :
    invokedCount (deploy_light_client_proxy_proc env s).2.1 c ≤
      (if c = Contract.LightClient then 1 else 0) +
      ((if c = Contract.PlonkVerifier then 1 else 0) +
        (if c = Contract.StateUpdateVK then 1 else 0)) := by
  have hLC := invokedCount_deploy_fn_le s .LightClient (deploy_light_client_contract env) c
  have hLCC := invokedCount_lcc_le env s c
  cases hr : (s.deploy_fn .LightClient (deploy_light_client_contract env)).2.2 with
  | error e =>
    simp only [deploy_light_client_proxy_proc, hr]
    omega
  | ok lc =>
    cases hg : env.genesis with
    | error e =>
      simp only [deploy_light_client_proxy_proc, hr, hg]
      omega
    | ok g =>
      cases hcd : env.initCalldata lc g with
      | none =>
        simp only [invokedCount] at hLC hLCC
        simp only [deploy_light_client_proxy_proc, hr, hg, hcd, invokedCount,
          List.countP_append, List.countP_cons, List.countP_nil]
        try simp
        omega
      | some data =>
        cases hps : env.proxySend lc data with
        | error e =>
          simp only [invokedCount] at hLC hLCC
          simp only [deploy_light_client_proxy_proc, hr, hg, hcd, hps, invokedCount,
            List.countP_append, List.countP_cons, List.countP_nil]
          try simp
          omega
        | ok addr =>
          simp only [invokedCount] at hLC hLCC
          simp only [deploy_light_client_proxy_proc, hr, hg, hcd, hps, invokedCount,
            List.countP_append, List.countP_cons, List.countP_nil]
          try simp
          omega

/-- Claim C4 (at-most-once deployment): across a single run on a fixed
registry, the deploy procedure for any given contract is invoked — and
hence its deployment executed — at most once, over every environment and
every initial registry, counting invocations from all (also recursive)
call sites. -/
theorem run_at_most_once (env : Env) (s0 : Contracts) (c : Contract) :
    invokedCount (runMain env s0).2.1 c ≤ 1 := by
  have hH := invokedCount_deploy_tx_le s0 .HotShot env.hotshotSend c
  have hP := invokedCount_deploy_fn_le (s0.deploy_tx .HotShot env.hotshotSend).1
    .LightClientProxy (deploy_light_client_proxy_proc env) c
  have hPP := invokedCount_proxy_proc_le env (s0.deploy_tx .HotShot env.hotshotSend).1 c
  have hbound : (if c = Contract.HotShot then 1 else 0) +
      ((if c = Contract.LightClientProxy then 1 else 0) +
        ((if c = Contract.LightClient then 1 else 0) +
          ((if c = Contract.PlonkVerifier then 1 else 0) +
            (if c = Contract.StateUpdateVK then 1 else 0)))) ≤ 1 := by
    cases c <;> simp
  cases hmk : env.hotshotMk with
  | error e => simp [runMain, hmk, invokedCount]
  | ok u =>
    cases hr1 : (s0.deploy_tx .HotShot env.hotshotSend).2.2 with
    | error e =>
      simp only [runMain, hmk, hr1]
      omega
    | ok a =>
      cases hr2 : ((s0.deploy_tx .HotShot env.hotshotSend).1.deploy_fn .LightClientProxy
          (deploy_light_client_proxy_proc env)).2.2 with
      | error e =>
        simp only [invokedCount] at hH hP hPP
        simp only [runMain, hmk, hr1, hr2, invokedCount, List.countP_append]
        omega
      | ok b =>
        simp only [invokedCount] at hH hP hPP
        simp only [runMain, hmk, hr1, hr2, invokedCount, List.countP_append]
        omega

/-- Claim C7 (idempotent reruns): with the registry pre-populated with
addresses for all five contracts (and the statically-known HotShot
deployer constructing without error), a full run performs zero
deployments — the deploy procedures are never invoked and no transaction
is broadcast — leaves the registry untouched, and writes exactly the
five input pairs. -/
theorem run_idempotent (env : Env) (s0 : Contracts) (a1 a2 a3 a4 a5 : Address)
    (hmk : env.hotshotMk = .ok ())
    (h1 : s0.get .HotShot = some a1)
    (h2 : s0.get .PlonkVerifier = some a2)
    (h3 : s0.get .StateUpdateVK = some a3)
    (h4 : s0.get .LightClient = some a4)
    (h5 : s0.get .LightClientProxy = some a5) :
    runMain env s0 =
      (s0, [Event.skipped .HotShot a1, Event.skipped .LightClientProxy a5],
        .ok [(.HotShot, a1), (.PlonkVerifier, a2), (.StateUpdateVK, a3),
          (.LightClient, a4), (.LightClientProxy, a5)]) ∧
    (∀ c, Event.invoked c ∉ (runMain env s0).2.1) ∧
    (∀ c, Event.broadcast c ∉ (runMain env s0).2.1) := by
  have e1 : s0.entries .HotShot = some a1 := h1
  have e2 : s0.entries .PlonkVerifier = some a2 := h2
  have e3 : s0.entries .StateUpdateVK = some a3 := h3
  have e4 : s0.entries .LightClient = some a4 := h4
  have e5 : s0.entries .LightClientProxy = some a5 := h5
  have hrun : runMain env s0 =
      (s0, [Event.skipped .HotShot a1, Event.skipped .LightClientProxy a5],
        .ok [(.HotShot, a1), (.PlonkVerifier, a2), (.StateUpdateVK, a3),
          (.LightClient, a4), (.LightClientProxy, a5)]) := by
    simp [runMain, Contracts.deploy_tx, Contracts.deploy_fn, Contracts.get, hmk,
      e1, e2, e3, e4, e5, Contracts.write, allContracts]
  refine ⟨hrun, fun c => ?_, fun c => ?_⟩ <;> rw [hrun] <;> simp

/-- Witness for C7 at a concrete registry holding the five addresses 1..5. -/
theorem run_idempotent_witness :
    runMain
      { hotshotMk := .ok (), hotshotSend := .error "off", pvMk := .error "off",
        pvSend := .error "off", vkMk := .error "off", vkSend := .error "off",
        artifact := .error "off", lcSend := fun _ => .error "off",
        genesis := .error "off", initCalldata := fun _ _ => none,
        proxySend := fun _ _ => .error "off" }
      (Contracts.mk fun c =>
        match c with
        | .HotShot => some 1
        | .PlonkVerifier => some 2
        | .StateUpdateVK => some 3
        | .LightClient => some 4
        | .LightClientProxy => some 5) =
      (Contracts.mk fun c =>
        match c with
        | .HotShot => some 1
        | .PlonkVerifier => some 2
        | .StateUpdateVK => some 3
        | .LightClient => some 4
        | .LightClientProxy => some 5,
        [Event.skipped .HotShot 1, Event.skipped .LightClientProxy 5],
        .ok [(.HotShot, 1), (.PlonkVerifier, 2), (.StateUpdateVK, 3),
          (.LightClient, 4), (.LightClientProxy, 5)]) :=
  (run_idempotent
    { hotshotMk := .ok (), hotshotSend := .error "off", pvMk := .error "off",
      pvSend := .error "off", vkMk := .error "off", vkSend := .error "off",
      artifact := .error "off", lcSend := fun _ => .error "off",
      genesis := .error "off", initCalldata := fun _ _ => none,
      proxySend := fun _ _ => .error "off" }
    (Contracts.mk fun c =>
      match c with
      | .HotShot => some 1
      | .PlonkVerifier => some 2
      | .StateUpdateVK => some 3
      | .LightClient => some 4
      | .LightClientProxy => some 5)
    1 2 3 4 5 rfl rfl rfl rfl rfl rfl).1
